import Mathlib

/-!
Verification development for the CG production metadata extractor.

Shallow embedding of the parts of the code that the specification's
claims are about:

* `src/sequence_detector.py` — pure sequence-grouping algorithm
  (`extract_all_numbers`, `get_filename_skeleton`,
  `find_varying_number_index`, `extract_frame_info_comparison`,
  `detect_sequences`);
* `storage_adapter.py` — `LocalStorageAdapter.get_file` and
  `S3StorageAdapter.get_file` context managers;
* `src/extractors/blend_extractor.py` — the candidate-fallback loop of
  `extract_blend_metadata`;
* `src/scanner.py` — the per-sequence size aggregation of
  `FileScanner._process_sequence`.

Filenames and paths are modelled as lists of characters; POSIX path
semantics are assumed (the pipeline runs in Linux containers and every
path in the repository's tests uses `/`).
-/

/-- Filenames and paths, modelled as lists of characters. -/
abbrev Str := List Char

/-! ### Python string/path primitives used by `sequence_detector.py` -/

/-- Helper for `lastIdxOf`: scan with a running index. -/
def lastIdxOfGo (c : Char) : Str → Nat → Option Nat
  | [], _ => none
  | x :: xs, i =>
    match lastIdxOfGo c xs (i + 1) with
    | some j => some j
    | none => if x = c then some i else none

/-- Index of the last occurrence of `c` (Python `str.rfind`, `none` for -1). -/
def lastIdxOf (c : Char) (s : Str) : Option Nat := lastIdxOfGo c s 0

/-- `pathlib.PurePath.stem` on a bare filename: the name with its last
`.suffix` removed, where a suffix only exists when the last dot is neither
the first nor the last character. -/
def pyStem (name : Str) : Str :=
  match lastIdxOf '.' name with
  | some i => if 0 < i ∧ i < name.length - 1 then name.take i else name
  | none => name

/-- `pathlib.PurePath.suffix` on a bare filename. -/
def pySuffix (name : Str) : Str :=
  match lastIdxOf '.' name with
  | some i => if 0 < i ∧ i < name.length - 1 then name.drop i else []
  | none => []

/-- Index right after the last `/` (0 when there is none); the split point
used by `posixpath.basename`/`posixpath.dirname`. -/
def pySplitIdx (p : Str) : Nat :=
  match lastIdxOf '/' p with
  | some i => i + 1
  | none => 0

/-- `os.path.basename` (POSIX). -/
def pyBasename (p : Str) : Str := p.drop (pySplitIdx p)

/-- `os.path.dirname` (POSIX): everything before the last `/`, with
trailing slashes stripped unless the head is all slashes. -/
def pyDirname (p : Str) : Str :=
  let head := p.take (pySplitIdx p)
  if head ≠ [] ∧ ¬ head.all (· = '/') then (head.reverse.dropWhile (· = '/')).reverse
  else head

/-- `os.path.join a b` (POSIX, two components as used in the detector). -/
def osJoin (a b : Str) : Str :=
  match b with
  | '/' :: _ => b
  | _ => if a = [] ∨ a.getLast? = some '/' then a ++ b else a ++ '/' :: b

/-! ### `sequence_detector.py` -/

/-- One maximal digit run found in a filename stem: the matched string,
its integer value, and its start position (one `re.finditer(r'\d+', stem)`
match in `extract_all_numbers`). -/
structure NumRun where
  numStr : Str
  val : Nat
  pos : Nat
deriving DecidableEq, Repr, Inhabited

/-- Python `int` on a digit string. -/
def natOfDigits (ds : Str) : Nat := ds.foldl (fun a c => a * 10 + (c.toNat - 48)) 0

/-- Scan for maximal digit runs, carrying the current position and the
(reversed) run in progress; returns `(run, startPos)` pairs. -/
def digitRunsGo : Str → Nat → Option (Nat × Str) → List (Str × Nat)
  | [], _, none => []
  | [], _, some (st, run) => [(run.reverse, st)]
  | c :: cs, i, none =>
    if c.isDigit then digitRunsGo cs (i + 1) (some (i, [c]))
    else digitRunsGo cs (i + 1) none
  | c :: cs, i, some (st, run) =>
    if c.isDigit then digitRunsGo cs (i + 1) (some (st, c :: run))
    else (run.reverse, st) :: digitRunsGo cs (i + 1) none

/-- `extract_all_numbers`: every maximal digit run in the filename stem,
as `(string, value, position)`. -/
def extract_all_numbers (filename : Str) : List NumRun :=
  (digitRunsGo (pyStem filename) 0 none).map (fun r => ⟨r.1, natOfDigits r.1, r.2⟩)

/-- Replace each maximal digit run by `#` (state: previous char was a digit). -/
def skeletonGo : Str → Bool → Str
  | [], _ => []
  | c :: cs, inRun =>
    if c.isDigit then
      if inRun then skeletonGo cs true else '#' :: skeletonGo cs true
    else c :: skeletonGo cs false

/-- `get_filename_skeleton`: stem with digit runs collapsed to `#`,
with the extension re-attached. -/
def get_filename_skeleton (filename : Str) : Str :=
  skeletonGo (pyStem filename) false ++ pySuffix filename

/-- `len(set(nums[idx][1] for nums in all_numbers)) > 1`: does the numeric
value at position `idx` differ across the files? -/
def variesAt (all_numbers : List (List NumRun)) (idx : Nat) : Bool :=
  ((all_numbers.map (fun ns => (ns.getD idx default).val)).dedup).length > 1

/-- The version-marker test of `find_varying_number_index`, applied (as in
the code) to the first filename: is the digit run at `idx` immediately
preceded by `v`, or by `v_`? -/
def versionMarked (f0 : Str) (nums0 : List NumRun) (idx : Nat) : Bool :=
  let position := (nums0.getD idx default).pos
  let stem := pyStem f0
  if position > 0 then
    if stem.getD (position - 1) ' ' = 'v' then true
    else if position > 1 ∧ (stem.drop (position - 2)).take 2 = ['v', '_'] then true
    else false
  else false

/-- The `varying_indices` list built by `find_varying_number_index`'s loop:
indices whose value varies, whose digit run (in the first file, as the code
measures it) is at least `min_padding` wide, and which are not
version-marked.  `f0` is the first filename of the group. -/
def varyingIndices (filenames : List Str) (f0 : Str) (min_padding : Nat) : List Nat :=
  (List.range (extract_all_numbers f0).length).filter (fun idx =>
    variesAt (filenames.map extract_all_numbers) idx
      && decide (min_padding ≤ ((extract_all_numbers f0).getD idx default).numStr.length)
      && ! versionMarked f0 (extract_all_numbers f0) idx)

/-- `find_varying_number_index`: the unique digit-run position whose value
varies across the filenames, subject to the minimum-padding requirement
(measured on the first file) and the version-marker exclusion; `none`
unless exactly one position qualifies.  (`all_numbers[0]` of the code is
`extract_all_numbers f0` here.) -/
def find_varying_number_index (filenames : List Str) (min_padding : Nat := 3) :
    Option Nat :=
  match filenames with
  | [] => none
  | f0 :: _ =>
    if ¬ (filenames.map extract_all_numbers).all
        (fun ns => ns.length = (extract_all_numbers f0).length) then none
    else if (extract_all_numbers f0).length = 0 then none
    else
      match varyingIndices filenames f0 min_padding with
      | [idx] => some idx
      | _ => none

/-- One entry of `frame_data`: `(file_path, frame_num, padding, base_name)`. -/
structure FrameDatum where
  file_path : Str
  frame_num : Nat
  padding : Nat
  base_name : Str
deriving DecidableEq, Repr, Inhabited

/-- Result dictionary of `extract_frame_info_comparison`. -/
structure FrameInfo where
  frame_data : List FrameDatum
  base_name : Str
  padding : Nat
  suffix : Str
deriving DecidableEq, Repr

/-- Loop body of `extract_frame_info_comparison`: state is the
`frame_data` accumulated so far together with the base/padding/suffix
fixed by the first accepted member (`none` before any member). -/
def efiStep (varying_idx : Nat) (st : List FrameDatum × Option (Str × Nat × Str))
    (p : Str × Str) : List FrameDatum × Option (Str × Nat × Str) :=
  let (filename, file_path) := p
  let numbers := extract_all_numbers filename
  if varying_idx < numbers.length then
    let nr := numbers.getD varying_idx default
    let stem := pyStem filename
    let current_base := stem.take nr.pos
    let end_of_number := nr.pos + nr.numStr.length
    let current_suffix := stem.drop end_of_number
    match st.2 with
    | none =>
      (st.1 ++ [⟨file_path, nr.val, nr.numStr.length, current_base⟩],
        some (current_base, nr.numStr.length, current_suffix))
    | some (b, pad, suf) =>
      if b = current_base ∧ pad = nr.numStr.length ∧ suf = current_suffix then
        (st.1 ++ [⟨file_path, nr.val, pad, b⟩], st.2)
      else st
  else st

/-- `extract_frame_info_comparison`: frame data for the members that agree
with the first member's base name, padding and suffix at the varying
position; members that disagree are silently skipped by the loop. -/
def extract_frame_info_comparison (filenames file_paths : List Str)
    (min_padding : Nat := 3) : Option FrameInfo :=
  match find_varying_number_index filenames min_padding with
  | none => none
  | some varying_idx =>
    match (filenames.zip file_paths).foldl (efiStep varying_idx) ([], none) with
    | ([], _) => none
    | (_ :: _, none) => none
    | (fd@(_ :: _), some (b, pad, suf)) => some ⟨fd, b, pad, suf⟩

/-- Stable insertion (new element goes after existing equal keys),
matching Python's stable `list.sort(key=lambda x: x[1])`. -/
def insertByFrame (x : FrameDatum) : List FrameDatum → List FrameDatum
  | [] => [x]
  | y :: ys => if y.frame_num ≤ x.frame_num then y :: insertByFrame x ys
               else x :: y :: ys

/-- Stable sort of `frame_data` by frame number. -/
def sortByFrame (l : List FrameDatum) : List FrameDatum :=
  l.foldl (fun acc x => insertByFrame x acc) []

/-- Python `f"{n:0{width}d}"` for a natural number. -/
def padNat (n width : Nat) : Str :=
  let ds := Nat.toDigits 10 n
  List.replicate (width - ds.length) '0' ++ ds

/-- The `SequenceGroup` dataclass. -/
structure SequenceGroup where
  base_name : Str
  file_paths : List Str
  start_frame : Nat
  end_frame : Nat
  frame_count : Nat
  middle_frame_path : Str
  padding : Nat
  pattern_path : Str
  directory : Str
  extension : Str
deriving DecidableEq, Repr

/-- Grouping key `(directory, skeleton, extension)`. -/
abbrev GroupKey := Str × Str × Str

/-- Append `v` to the entry for `k`, or create the entry at the end —
the insertion-order semantics of Python's `defaultdict(list)`. -/
def addToGroups (gs : List (GroupKey × List (Str × Str))) (k : GroupKey)
    (v : Str × Str) : List (GroupKey × List (Str × Str)) :=
  match gs with
  | [] => [(k, [v])]
  | (k', vs) :: rest =>
    if k' = k then (k', vs ++ [v]) :: rest else (k', vs) :: addToGroups rest k v

/-- Body of the per-group loop of `detect_sequences`: at most one
`SequenceGroup` plus the paths sent back to the standalone list. -/
def processGroup (min_sequence_length min_padding : Nat)
    (entry : GroupKey × List (Str × Str)) : Option SequenceGroup × List Str :=
  let ((directory, skeleton, extension), file_list) := entry
  if file_list.length > 0 ∧ skeleton = (file_list.headD default).2 then
    (none, file_list.map (·.1))
  else if file_list.length < min_sequence_length then
    (none, file_list.map (·.1))
  else
    let file_paths_in_group := file_list.map (·.1)
    let filenames := file_list.map (·.2)
    match extract_frame_info_comparison filenames file_paths_in_group min_padding with
    | none => (none, file_paths_in_group)
    | some fi =>
      -- frame_data is nonempty here: extract_frame_info_comparison
      -- returns none on an empty frame_data.
      let frame_data := sortByFrame fi.frame_data
      let file_paths_in_seq := frame_data.map (·.file_path)
      let frame_numbers := frame_data.map (·.frame_num)
      let start_frame := frame_numbers.headD 0
      let end_frame := frame_numbers.getLastD 0
      let frame_count := frame_numbers.length
      let missing_frames :=
        (List.range' start_frame (end_frame + 1 - start_frame)).filter
          (fun f => f ∉ frame_numbers)
      if missing_frames ≠ [] then (none, file_paths_in_seq)
      else
        let middle_index := file_paths_in_seq.length / 2
        let middle_frame_path := file_paths_in_seq.getD middle_index default
        let frame_range :=
          ('[' :: padNat start_frame fi.padding) ++ ('-' :: padNat end_frame fi.padding) ++ [']']
        let pattern_name :=
          if fi.base_name ≠ [] then fi.base_name ++ frame_range ++ fi.suffix ++ extension
          else frame_range ++ fi.suffix ++ extension
        (some { base_name := pattern_name, file_paths := file_paths_in_seq,
                start_frame, end_frame, frame_count, middle_frame_path,
                padding := fi.padding, pattern_path := osJoin directory pattern_name,
                directory, extension }, [])

/-- `detect_sequences`: group the paths by `(directory, skeleton,
extension)` — files with a disallowed extension keep their literal
filename in the skeleton slot — then run the per-group analysis,
collecting the detected sequences and the standalone leftovers. -/
def detect_sequences (file_paths : List Str) (min_sequence_length : Nat := 5)
    (allowed_extensions : Option (List Str) := none) (min_padding : Nat := 3) :
    List SequenceGroup × List Str :=
  let groups := file_paths.foldl (fun gs fp =>
    let directory := pyDirname fp
    let filename := pyBasename fp
    let extension := (pySuffix filename).map Char.toLower
    let skip : Bool := match allowed_extensions with
      | some allowed => decide (extension ∉ allowed)
      | none => false
    if skip then addToGroups gs (directory, filename, extension) (fp, filename)
    else addToGroups gs (directory, get_filename_skeleton filename, extension) (fp, filename)) []
  groups.foldl (fun acc g =>
    match processGroup min_sequence_length min_padding g with
    | (some s, st) => (acc.1 ++ [s], acc.2 ++ st)
    | (none, st) => (acc.1, acc.2 ++ st)) ([], [])

/-! ### `storage_adapter.py` -/

/-- Python exception classes raised/observed by the adapters. -/
inductive PyExc where
  | fileNotFound (msg : Str)
  | attributeError (name : Str)
  | clientError (msg : Str)
  | callerError (msg : Str)
deriving DecidableEq, Repr

/-- Outcome of entering and leaving a `with`-block: either the block ran
to completion on a yielded value, or an exception escaped. -/
inductive PyOutcome (α : Type) where
  | ok (a : α)
  | exn (e : PyExc)
deriving DecidableEq, Repr

/-- The local filesystem, abstracted to the set of existing paths
(contents are irrelevant to the claims). -/
abbrev FS := List Str

namespace LocalStorageAdapter

/-- `LocalStorageAdapter.get_file` as a state transformer on the local
filesystem: raise `FileNotFoundError` when the path does not exist,
otherwise yield the path itself; no cleanup on exit.  `bodyOk` abstracts
whether the caller's `with`-body completes without raising. -/
def get_file (fs : FS) (file_path : Str) (bodyOk : Bool) : PyOutcome Str × FS :=
  if file_path ∈ fs then
    if bodyOk then (.ok file_path, fs)
    else (.exn (.callerError ("error while processing ".data ++ file_path)), fs)
  else
    (.exn (.fileNotFound ("File not found: ".data ++ file_path)), fs)

end LocalStorageAdapter

namespace S3StorageAdapter

/-- `S3StorageAdapter.get_file` as a state transformer on the local
scratch filesystem.  `tmp` is the fresh scratch path produced by
`tempfile.NamedTemporaryFile` (which creates the file), `downloadOk`
abstracts whether `download_file` succeeds, and `bodyOk` whether the
caller's `with`-body completes without raising.  The `finally` clause
unlinks the scratch file when it still exists, on every exit path. -/
def get_file (fs : FS) (tmp : Str) (downloadOk bodyOk : Bool) :
    PyOutcome Str × FS :=
  -- tempfile.NamedTemporaryFile(delete=False, ...) creates the file
  let fs1 := fs ++ [tmp]
  -- try: download; yield temp_path; except: re-raise
  let result : PyOutcome Str :=
    if downloadOk then
      if bodyOk then .ok tmp
      else .exn (.callerError ("error while processing ".data ++ tmp))
    else .exn (.clientError ("Error downloading S3 file".data))
  -- finally: if os.path.exists(temp_path): os.unlink(temp_path)
  let fsFinal := if tmp ∈ fs1 then fs1.erase tmp else fs1
  (result, fsFinal)

/-- The filesystem as the `with`-body sees it: after the temp file was
created and the download filled it (the body only runs when the download
succeeded). -/
def fsDuringBody (fs : FS) (tmp : Str) : FS := fs ++ [tmp]

end S3StorageAdapter

/-! ### `blend_extractor.py` — candidate fallback loop of
`extract_blend_metadata` -/

/-- One `CandidateExecutable` `{name, path}` from `get_blender_candidates`. -/
structure Candidate where
  name : String
  path : String
deriving DecidableEq, Repr

/-- How one candidate's attempt plays out, as classified by the loop body
of `extract_blend_metadata` (the process launch, streaming and marker
scanning are abstracted into which classification branch fires):

* `notFound` — `os.path.exists(blender_exe)` is false; no process is
  launched;
* `fatalLoad` — a fatal load marker (`BLEND_LOAD_FAILED`, ...) is in the
  output;
* `crashed` — a crash indicator is found (or a nonzero exit without the
  finish marker);
* `metaParsed thumbSet thumbDiag` — the `BLEND_METADATA_START` marker is
  present and the payload parses; `thumbSet` says whether
  `metadata['thumbnail_path']` ends up set, and `thumbDiag` (relevant only
  when the thumbnail is absent) whether a `THUMBNAIL_ERROR` diagnostic is
  appended;
* `thumbOnly` — no metadata marker, but `THUMBNAIL_SUCCESS` plus an
  existing output file (degraded success, taken without `continue`);
* `extractFailed` — no metadata marker and no thumbnail;
* `raised msg` — an exception (e.g. a timeout) escapes the `try` body. -/
inductive BlendAttempt where
  | notFound
  | fatalLoad
  | crashed
  | metaParsed (thumbSet : Bool) (thumbDiag : Bool)
  | thumbOnly
  | extractFailed
  | raised (msg : String)
deriving DecidableEq, Repr

/-- The observable content of the `metadata` dict a candidate hands to the
best-result tracking: which candidate's parsed payload filled the
scene-statistics fields (`none` when the payload was not captured),
whether `thumbnail_path` is set, and the `error` field. -/
structure BlendRecord where
  payload_source : Option String
  thumb : Bool
  error : Option String
deriving DecidableEq, Repr

/-- Diagnostic recorded when the executable is missing (line 224). -/
def notFoundMsg (c : Candidate) : String :=
  "Blender executable not found: " ++ c.path ++ " (" ++ c.name ++ ")"

/-- Diagnostic for a fatal load error (line 445). -/
def fatalMsg (c : Candidate) : String := "Fatal load error (" ++ c.name ++ ")"

/-- Diagnostic for a detected crash (line 468). -/
def crashMsg (c : Candidate) : String := "Blender crashed (" ++ c.name ++ ")"

/-- Diagnostic when neither metadata nor thumbnail came out (line 526). -/
def extractFailMsg (c : Candidate) : String :=
  "Could not extract Blender metadata (" ++ c.name ++ ")"

/-- Diagnostic for a failed thumbnail render under parsed metadata (line 509). -/
def thumbErrMsg (c : Candidate) : String :=
  "Thumbnail render failed (" ++ c.name ++ ")"

/-- Diagnostic for an exception escaping an attempt (line 543). -/
def raisedMsg (c : Candidate) (m : String) : String :=
  "Blender attempt failed (" ++ c.name ++ "): " ++ m

/-- The `for candidate in candidates` loop of `extract_blend_metadata`,
carrying `(best_metadata, best_thumbnail, attempt_errors)` and honouring
the `break` once `best_thumbnail` holds. -/
def blendLoop : List (Candidate × BlendAttempt) → Option BlendRecord → Bool →
    List String → Option BlendRecord × Bool × List String
  | [], best, bt, errs => (best, bt, errs)
  | (c, a) :: rest, best, bt, errs =>
    match a with
    | .notFound => blendLoop rest best bt (errs ++ [notFoundMsg c])
    | .fatalLoad => blendLoop rest best bt (errs ++ [fatalMsg c])
    | .crashed => blendLoop rest best bt (errs ++ [crashMsg c])
    | .extractFailed => blendLoop rest best bt (errs ++ [extractFailMsg c])
    | .raised m => blendLoop rest best bt (errs ++ [raisedMsg c m])
    | .thumbOnly =>
      let md : BlendRecord := ⟨none, true, none⟩
      let best' := if best = none ∨ (true ∧ ¬ bt) then some md else best
      let bt' := if best = none ∨ (true ∧ ¬ bt) then true else bt
      if bt' then (best', bt', errs) else blendLoop rest best' bt' errs
    | .metaParsed thumbSet thumbDiag =>
      let errs' := if ¬ thumbSet ∧ thumbDiag then errs ++ [thumbErrMsg c] else errs
      let md : BlendRecord := ⟨some c.name, thumbSet, none⟩
      let best' := if best = none ∨ (thumbSet ∧ ¬ bt) then some md else best
      let bt' := if best = none ∨ (thumbSet ∧ ¬ bt) then thumbSet else bt
      if bt' then (best', bt', errs') else blendLoop rest best' bt' errs'

/-- `'; '.join(attempt_errors)`. -/
def joinSemi (l : List String) : String := String.intercalate "; " l

/-- `extract_blend_metadata`, restricted to the candidate loop and the
result assembly after it (lines 218–555): run the loop, then either
return the best record (attaching the joined diagnostics via `setdefault`
when it lacks a thumbnail), or fall back to a bare error record carrying
all diagnostics. -/
def extract_blend_metadata (attempts : List (Candidate × BlendAttempt)) :
    BlendRecord :=
  match blendLoop attempts none false [] with
  | (some best, bt, errs) =>
    if ¬ bt ∧ errs ≠ [] then
      { best with error := match best.error with
          | some e => some e
          | none => some (joinSemi errs) }
    else best
  | (none, _, errs) =>
    ⟨none, false,
      some (if errs ≠ [] then joinSemi errs else "Failed to process blend file")⟩

/-- Does an attempt leave `thumb_ok` true when it reaches the best-result
tracking (lines 534–540)? -/
def yieldsThumb : BlendAttempt → Bool
  | .metaParsed thumbSet _ => thumbSet
  | .thumbOnly => true
  | _ => false

/-- The record an attempt contributes when it reaches the best-result
tracking (meaningful for `metaParsed` and `thumbOnly` only). -/
def mdOf (c : Candidate) : BlendAttempt → BlendRecord
  | .metaParsed thumbSet _ => ⟨some c.name, thumbSet, none⟩
  | .thumbOnly => ⟨none, true, none⟩
  | _ => ⟨none, false, none⟩

/-- The diagnostics one attempt appends to `attempt_errors` before (or
instead of) reaching the best-result tracking. -/
def attemptDiags (x : Candidate × BlendAttempt) : List String :=
  match x.2 with
  | .notFound => [notFoundMsg x.1]
  | .fatalLoad => [fatalMsg x.1]
  | .crashed => [crashMsg x.1]
  | .extractFailed => [extractFailMsg x.1]
  | .raised m => [raisedMsg x.1 m]
  | .metaParsed thumbSet thumbDiag =>
    if ¬ thumbSet ∧ thumbDiag then [thumbErrMsg x.1] else []
  | .thumbOnly => []

/-! ### `scanner.py` — per-sequence size aggregation in
`FileScanner._process_sequence` -/

/-- The attribute names the `storage_adapter.py` classes define (methods of
`StorageAdapter` and overrides in both concrete adapters).  Notably,
`get_file_size` is not among them. -/
def storageAdapterMethods : List String :=
  ["__init__", "list_files", "get_file", "file_exists", "upload_thumbnail"]

/-- Python attribute lookup for a `get_file_size` call on an adapter:
`AttributeError` when the class does not define the method, else the
size the implementation would return. -/
def getFileSizeCall (methods : List String) (sizeImpl : Str → Nat) (p : Str) :
    PyOutcome Nat :=
  if "get_file_size" ∈ methods then .ok (sizeImpl p)
  else .exn (.attributeError "get_file_size".data)

/-- The aggregation loop of `_process_sequence` (lines 313–321): sum
`self.storage.get_file_size(file_path)` over the members, with any
exception caught, logged as a warning and skipped. -/
def aggregate_sequence_size (methods : List String) (sizeImpl : Str → Nat)
    (file_paths : List Str) : Nat :=
  file_paths.foldl (fun total p =>
    match getFileSizeCall methods sizeImpl p with
    | .ok n => total + n
    | .exn _ => total) 0

/-! ### Concrete inputs used by the claim theorems -/

/-- `shot_<i padded to 4>.exr`. -/
def shotFile (i : Nat) : Str := "shot_".data ++ padNat i 4 ++ ".exr".data

/-- The spec's concrete scenario: `shot_0001.exr` … `shot_0050.exr`. -/
def shotFiles50 : List Str := (List.range 50).map (fun k => shotFile (k + 1))

/-- Same scenario with `shot_0025.exr` removed. -/
def shotFilesGap : List Str :=
  ((((List.range 50).map (fun k => k + 1)).filter (fun i => i ≠ 25))).map shotFile

/-- Five same-skeleton files of which the last uses a wider zero padding. -/
def paddingMixFiles : List Str :=
  ["img_001.png", "img_002.png", "img_003.png", "img_004.png", "img_0005.png"].map String.data

/-- Concrete member paths of a five-frame sequence group. -/
def seqMembers5 : List Str :=
  ["/show/img_0001.exr", "/show/img_0002.exr", "/show/img_0003.exr",
   "/show/img_0004.exr", "/show/img_0005.exr"].map String.data

/-! ### Theorems -/

/-- C1: the claim says a skeleton group whose frames are not contiguous is
split at each gap into maximal contiguous runs, each re-checked against the
minimum length, so that `shot_0001.exr`…`shot_0050.exr` minus
`shot_0025.exr` with minLength 5 yields groups 1–24 and 26–50.  The code
does no such splitting: on the gapped input `detect_sequences` returns no
group at all and sends all 49 files back as standalone. -/
theorem detect_sequences_gap_all_standalone :
    detect_sequences shotFilesGap 5 none 3 = ([], shotFilesGap) := by decide

/-- C2: refutation of the partition property.  On five same-skeleton files
where the last member's zero padding is wider, `detect_sequences` emits one
group holding the first four paths and an empty standalone list;
`img_0005.png` is an input path that appears in neither output — it is
lost, not repartitioned. -/
theorem detect_sequences_loses_inconsistent_member :
    (detect_sequences paddingMixFiles 5 none 3).1.map SequenceGroup.file_paths
        = [["img_001.png".data, "img_002.png".data, "img_003.png".data, "img_004.png".data]]
    ∧ (detect_sequences paddingMixFiles 5 none 3).2 = []
    ∧ "img_0005.png".data ∈ paddingMixFiles := by decide

/-- C3 counterexample: with `min_sequence_length = 5`, the group emitted on
`paddingMixFiles` has only 4 members — a `SequenceGroup` below the
configured minimum is emitted after the inconsistent member was dropped,
so `frame_count ≥ min_sequence_length` is not an invariant. -/
theorem detect_sequences_emits_short_group :
    (detect_sequences paddingMixFiles 5 none 3).1.map SequenceGroup.frame_count = [4]
    ∧ 4 < 5 := by decide

/-- C3 amended: the minimum-length check is applied to the whole skeleton
group before the per-member consistency filter — any skeleton group with
fewer members than the minimum is discarded entirely to standalone. -/
theorem small_skeleton_groups_discarded (min_sequence_length min_padding : Nat)
    (entry : GroupKey × List (Str × Str)) (h : entry.2.length < min_sequence_length) :
    processGroup min_sequence_length min_padding entry = (none, entry.2.map (·.1)) := by
  obtain ⟨⟨d, sk, ext⟩, fl⟩ := entry
  simp only [processGroup]
  by_cases h1 : fl.length > 0 ∧ sk = (fl.headD default).2
  · rw [if_pos h1]
  · rw [if_neg h1, if_pos h]

/-- C3 amended, witness: a one-member skeleton group with minimum 5 is sent
back to standalone. -/
theorem small_skeleton_groups_discarded_witness :
    processGroup 5 3 (("/a".data, "img_#.png".data, ".png".data),
        [("/a/img_001.png".data, "img_001.png".data)])
      = (none, ["/a/img_001.png".data]) :=
  small_skeleton_groups_discarded 5 3 _ (by decide)

/-- C4 counterexample: on `shot_0001.exr` … `shot_0050.exr` the single
detected group spans 1–50, but its representative `middle_frame_path` is
`shot_0026.exr` (index 50 / 2 = 25 of the 0-based sorted member list), not
`shot_0025.exr` as the claim states. -/
theorem detect_shot50_representative_not_0025 :
    (detect_sequences shotFiles50 5 none 3).1.map SequenceGroup.middle_frame_path
        = ["shot_0026.exr".data]
    ∧ (detect_sequences shotFiles50 5 none 3).1.map SequenceGroup.start_frame = [1]
    ∧ (detect_sequences shotFiles50 5 none 3).1.map SequenceGroup.end_frame = [50]
    ∧ (detect_sequences shotFiles50 5 none 3).2 = []
    ∧ "shot_0026.exr".data ≠ "shot_0025.exr".data := by decide

/-- C4 amended: the scenario yields exactly one group spanning 1–50 with no
standalone leftovers, and the representative is the member at 0-based index
`frame_count / 2` of the sorted list — `shot_0026.exr` for 50 frames. -/
theorem detect_shot50_one_group_upper_middle :
    (detect_sequences shotFiles50 5 none 3).1.map
        (fun g => (g.start_frame, g.end_frame, g.frame_count,
          g.middle_frame_path, g.file_paths.getD (g.frame_count / 2) []))
      = [(1, 50, 50, "shot_0026.exr".data, "shot_0026.exr".data)]
    ∧ (detect_sequences shotFiles50 5 none 3).2 = [] := by decide

/-- C5: a version-marked digit run (immediately preceded by `v` or `v_` in
the stem — the code checks the first filename; members of one skeleton
group share the marker) is never the index selected by
`find_varying_number_index`; and when every varying position is
version-marked, the function returns `none` rather than matching on a
different field. -/
theorem version_runs_never_selected (f0 : Str) (rest : List Str) (min_padding : Nat) :
    (∀ idx, find_varying_number_index (f0 :: rest) min_padding = some idx →
      versionMarked f0 (extract_all_numbers f0) idx = false)
    ∧ ((∀ idx ∈ List.range (extract_all_numbers f0).length,
          variesAt ((f0 :: rest).map extract_all_numbers) idx = true →
          versionMarked f0 (extract_all_numbers f0) idx = true) →
        find_varying_number_index (f0 :: rest) min_padding = none) := by
  constructor
  · intro idx h
    simp only [find_varying_number_index] at h
    split at h
    · exact absurd h (by simp)
    · split at h
      · exact absurd h (by simp)
      · split at h
        next i heq =>
          injection h with h'
          subst h'
          have hmem : i ∈ varyingIndices (f0 :: rest) f0 min_padding := by
            rw [heq]; exact List.mem_singleton.mpr rfl
          have hp := (List.mem_filter.mp hmem).2
          simp only [Bool.and_eq_true, Bool.not_eq_true'] at hp
          exact hp.2
        next => exact absurd h (by simp)
  · intro hall
    simp only [find_varying_number_index]
    split
    · rfl
    · split
      · rfl
      · have hL : varyingIndices (f0 :: rest) f0 min_padding = [] := by
          rw [varyingIndices, List.filter_eq_nil_iff]
          intro idx hidx hpred
          simp only [Bool.and_eq_true, Bool.not_eq_true'] at hpred
          exact absurd (hall idx hidx hpred.1.1) (by simp [hpred.2])
        rw [hL]

/-- C5, witness: in `file_v001_0050.exr`/`file_v001_0051.exr` the selected
index 1 is not version-marked, and for `file_v001.png`/`file_v002.png`,
where the only varying run is version-marked, the result is `none`. -/
theorem version_runs_never_selected_witness :
    versionMarked "file_v001_0050.exr".data
        (extract_all_numbers "file_v001_0050.exr".data) 1 = false
    ∧ find_varying_number_index ["file_v001.png".data, "file_v002.png".data] 3 = none :=
  ⟨(version_runs_never_selected "file_v001_0050.exr".data ["file_v001_0051.exr".data] 3).1
      1 (by decide),
    (version_runs_never_selected "file_v001.png".data ["file_v002.png".data] 3).2
      (by decide)⟩

/-- C6: `S3StorageAdapter.get_file` creates a fresh scratch file, yields
its local path, and the `finally` clause removes the scratch file on every
exit path — normal completion, a failed download, and an exception raised
by the caller's body — leaving the rest of the local filesystem untouched;
during the body the scratch file exists. -/
theorem s3_get_file_cleanup (fs : FS) (tmp : Str) (downloadOk bodyOk : Bool)
    (hfresh : tmp ∉ fs) :
    (S3StorageAdapter.get_file fs tmp downloadOk bodyOk).2 = fs
    ∧ tmp ∉ (S3StorageAdapter.get_file fs tmp downloadOk bodyOk).2
    ∧ (S3StorageAdapter.get_file fs tmp true true).1 = .ok tmp
    ∧ (S3StorageAdapter.get_file fs tmp false bodyOk).1
        = .exn (.clientError "Error downloading S3 file".data)
    ∧ (S3StorageAdapter.get_file fs tmp true false).1
        = .exn (.callerError ("error while processing ".data ++ tmp))
    ∧ tmp ∈ S3StorageAdapter.fsDuringBody fs tmp := by
  have herase : (fs ++ [tmp]).erase tmp = fs := by
    rw [List.erase_append_right _ hfresh]
    simp
  have hsnd : (S3StorageAdapter.get_file fs tmp downloadOk bodyOk).2 = fs := by
    simp only [S3StorageAdapter.get_file]
    rw [if_pos (by simp), herase]
  refine ⟨hsnd, by rw [hsnd]; exact hfresh, rfl, rfl, rfl, ?_⟩
  simp [S3StorageAdapter.fsDuringBody]

/-- C6, witness: cleanup at a concrete filesystem and scratch path. -/
theorem s3_get_file_cleanup_witness :
    (S3StorageAdapter.get_file ["/data/x.exr".data] "/tmp/s3_download_a.exr".data
        true true).2 = ["/data/x.exr".data] :=
  (s3_get_file_cleanup ["/data/x.exr".data] "/tmp/s3_download_a.exr".data
      true true (by decide)).1

/-- C10: `LocalStorageAdapter.get_file` yields the input path itself when
it exists, touching nothing on the filesystem regardless of how the body
exits, and raises `FileNotFoundError` when the path does not exist. -/
theorem local_get_file_spec (fs : FS) (p : Str) (bodyOk : Bool) :
    (p ∈ fs → LocalStorageAdapter.get_file fs p true = (.ok p, fs))
    ∧ (p ∈ fs → (LocalStorageAdapter.get_file fs p bodyOk).2 = fs)
    ∧ (p ∉ fs → LocalStorageAdapter.get_file fs p bodyOk
        = (.exn (.fileNotFound ("File not found: ".data ++ p)), fs)) := by
  refine ⟨fun h => ?_, fun h => ?_, fun h => ?_⟩
  · simp [LocalStorageAdapter.get_file, h]
  · cases bodyOk <;> simp [LocalStorageAdapter.get_file, h]
  · simp [LocalStorageAdapter.get_file, h]

/-- C10, witness: both branches at a concrete filesystem. -/
theorem local_get_file_spec_witness :
    LocalStorageAdapter.get_file ["/data/a.png".data] "/data/a.png".data true
      = (.ok "/data/a.png".data, ["/data/a.png".data])
    ∧ LocalStorageAdapter.get_file ["/data/a.png".data] "/data/b.png".data true
      = (.exn (.fileNotFound ("File not found: ".data ++ "/data/b.png".data)),
          ["/data/a.png".data]) :=
  ⟨(local_get_file_spec ["/data/a.png".data] "/data/a.png".data true).1 (by decide),
    (local_get_file_spec ["/data/a.png".data] "/data/b.png".data true).2.2 (by decide)⟩

/-- C9: none of the `storage_adapter.py` classes defines `get_file_size`,
so every `self.storage.get_file_size(...)` call in
`FileScanner._process_sequence` raises `AttributeError`, which the inner
`try`/`except` swallows as a warning — the aggregated `file_size` handed to
the catalog is always 0, never the sum of the member sizes (here 500 for
five 100-byte members). -/
theorem sequence_size_always_zero :
    (∀ (sizeImpl : Str → Nat) (paths : List Str),
      aggregate_sequence_size storageAdapterMethods sizeImpl paths = 0)
    ∧ aggregate_sequence_size storageAdapterMethods (fun _ => 100) seqMembers5 = 0
    ∧ (seqMembers5.map (fun _ => 100)).sum = 500 := by
  have hgen : ∀ (sizeImpl : Str → Nat) (paths : List Str),
      aggregate_sequence_size storageAdapterMethods sizeImpl paths = 0 := by
    intro sizeImpl paths
    have h : ∀ (ps : List Str) (t : Nat), ps.foldl (fun total p =>
        match getFileSizeCall storageAdapterMethods sizeImpl p with
        | .ok n => total + n
        | .exn _ => total) t = t := by
      intro ps
      induction ps with
      | nil => intro t; rfl
      | cons p ps ih =>
        intro t
        have hm : getFileSizeCall storageAdapterMethods sizeImpl p
            = .exn (.attributeError "get_file_size".data) := by
          rw [getFileSizeCall, if_neg (by decide)]
        simp only [List.foldl_cons, hm]
        exact ih t
    exact h paths 0
  exact ⟨hgen, hgen _ _, by decide⟩

/-- Helper: attempts that do not set `thumb_ok` never break the loop; the
first thumbnail-yielding attempt becomes the best record and stops the
iteration regardless of the remaining candidates. -/
theorem blendLoop_skip_nonthumb (pre : List (Candidate × BlendAttempt))
    (c : Candidate) (a : BlendAttempt) (post : List (Candidate × BlendAttempt))
    (hpre : ∀ x ∈ pre, yieldsThumb x.2 = false) (ha : yieldsThumb a = true) :
    ∀ (best : Option BlendRecord) (errs : List String),
      blendLoop (pre ++ (c, a) :: post) best false errs
        = (some (mdOf c a), true, errs ++ pre.flatMap attemptDiags) := by
  induction pre with
  | nil =>
    intro best errs
    cases a with
    | metaParsed thumbSet thumbDiag =>
      simp only [yieldsThumb] at ha
      subst ha
      simp [blendLoop, mdOf]
    | thumbOnly =>
      simp [blendLoop, mdOf]
    | notFound => simp [yieldsThumb] at ha
    | fatalLoad => simp [yieldsThumb] at ha
    | crashed => simp [yieldsThumb] at ha
    | extractFailed => simp [yieldsThumb] at ha
    | raised m => simp [yieldsThumb] at ha
  | cons x pre ih =>
    intro best errs
    have hx : yieldsThumb x.2 = false := hpre x (List.mem_cons_self x pre)
    have hpre' : ∀ y ∈ pre, yieldsThumb y.2 = false :=
      fun y hy => hpre y (List.mem_cons_of_mem x hy)
    obtain ⟨cx, ax⟩ := x
    cases ax with
    | notFound =>
      have hrec : blendLoop (((cx, BlendAttempt.notFound) :: pre) ++ (c, a) :: post)
            best false errs
          = blendLoop (pre ++ (c, a) :: post) best false (errs ++ [notFoundMsg cx]) := rfl
      rw [hrec, ih hpre']
      simp [attemptDiags]
    | fatalLoad =>
      have hrec : blendLoop (((cx, BlendAttempt.fatalLoad) :: pre) ++ (c, a) :: post)
            best false errs
          = blendLoop (pre ++ (c, a) :: post) best false (errs ++ [fatalMsg cx]) := rfl
      rw [hrec, ih hpre']
      simp [attemptDiags]
    | crashed =>
      have hrec : blendLoop (((cx, BlendAttempt.crashed) :: pre) ++ (c, a) :: post)
            best false errs
          = blendLoop (pre ++ (c, a) :: post) best false (errs ++ [crashMsg cx]) := rfl
      rw [hrec, ih hpre']
      simp [attemptDiags]
    | extractFailed =>
      have hrec : blendLoop (((cx, BlendAttempt.extractFailed) :: pre) ++ (c, a) :: post)
            best false errs
          = blendLoop (pre ++ (c, a) :: post) best false (errs ++ [extractFailMsg cx]) := rfl
      rw [hrec, ih hpre']
      simp [attemptDiags]
    | raised m =>
      have hrec : blendLoop (((cx, BlendAttempt.raised m) :: pre) ++ (c, a) :: post)
            best false errs
          = blendLoop (pre ++ (c, a) :: post) best false (errs ++ [raisedMsg cx m]) := rfl
      rw [hrec, ih hpre']
      simp [attemptDiags]
    | thumbOnly => simp [yieldsThumb] at hx
    | metaParsed ts td =>
      simp only [yieldsThumb] at hx
      subst hx
      have hrec : blendLoop (((cx, BlendAttempt.metaParsed false td) :: pre) ++ (c, a) :: post)
            best false errs
          = blendLoop (pre ++ (c, a) :: post)
              (if best = none then some ⟨some cx.name, false, none⟩ else best) false
              (if td then errs ++ [thumbErrMsg cx] else errs) := by
        simp [blendLoop]
      rw [hrec, ih hpre']
      by_cases htd : td = true
      · simp [attemptDiags, htd, List.append_assoc]
      · simp [attemptDiags, htd]

/-- C7 counterexample: a candidate whose run yields a thumbnail but whose
metadata payload was not captured (`thumbOnly`, the degraded success at
lines 519–524) also stops the iteration: the returned record has no
parsed payload and the later candidate that would have yielded both
metadata and preview is never adopted — refuting "stops early only once a
candidate has yielded both". -/
theorem blend_break_without_payload :
    extract_blend_metadata
        [(⟨"modern-4.x", "/opt/blender-4/blender"⟩, .thumbOnly),
         (⟨"bridge-3.x", "/opt/blender-3/blender"⟩, .metaParsed true false)]
      = ⟨none, true, none⟩
    ∧ (⟨none, true, none⟩ : BlendRecord).payload_source ≠ some "bridge-3.x" := by
  exact ⟨rfl, by decide⟩

/-- C7 amended: the loop tracks the best result, preferring one with a
thumbnail, and stops early exactly at the first candidate whose accepted
result carries a preview thumbnail — whether or not that candidate also
produced the parsed metadata payload; candidates after it are never
consulted. -/
theorem blend_stops_at_first_thumbnail (pre post : List (Candidate × BlendAttempt))
    (c : Candidate) (a : BlendAttempt)
    (hpre : ∀ x ∈ pre, yieldsThumb x.2 = false) (ha : yieldsThumb a = true) :
    extract_blend_metadata (pre ++ (c, a) :: post) = mdOf c a
    ∧ extract_blend_metadata (pre ++ (c, a) :: post)
        = extract_blend_metadata (pre ++ [(c, a)])
    ∧ (mdOf c a).thumb = true := by
  have hext : ∀ (l : List (Candidate × BlendAttempt)) (errs : List String),
      blendLoop l none false [] = (some (mdOf c a), true, errs) →
      extract_blend_metadata l = mdOf c a := by
    intro l errs hl
    simp only [extract_blend_metadata, hl]
    simp
  have h1 := hext _ _ (blendLoop_skip_nonthumb pre c a post hpre ha none [])
  have h2 := hext _ _ (blendLoop_skip_nonthumb pre c a [] hpre ha none [])
  have hthumb : (mdOf c a).thumb = true := by
    cases a <;> simp_all [yieldsThumb, mdOf]
  exact ⟨h1, by rw [h1, h2], hthumb⟩

/-- C7 amended, witness: a payload-without-thumbnail candidate is kept but
does not stop the loop; the following thumbnail-only candidate does. -/
theorem blend_stops_at_first_thumbnail_witness :
    extract_blend_metadata
        [(⟨"modern-4.x", "/opt/b4"⟩, .metaParsed false false),
         (⟨"bridge-3.x", "/opt/b3"⟩, .thumbOnly),
         (⟨"default", "blender"⟩, .metaParsed true false)]
      = mdOf ⟨"bridge-3.x", "/opt/b3"⟩ .thumbOnly :=
  (blend_stops_at_first_thumbnail [(⟨"modern-4.x", "/opt/b4"⟩, .metaParsed false false)]
      [(⟨"default", "blender"⟩, .metaParsed true false)]
      ⟨"bridge-3.x", "/opt/b3"⟩ .thumbOnly (by decide) (by decide)).1

/-- Helper: a prefix of missing-executable candidates only appends their
diagnostics to `attempt_errors` and advances, launching nothing. -/
theorem blendLoop_notFound_prefix (cs : List Candidate) :
    ∀ (rest : List (Candidate × BlendAttempt)) (best : Option BlendRecord)
      (bt : Bool) (errs : List String),
      blendLoop (cs.map (fun c => (c, BlendAttempt.notFound)) ++ rest) best bt errs
        = blendLoop rest best bt (errs ++ cs.map notFoundMsg) := by
  induction cs with
  | nil => intro rest best bt errs; simp
  | cons c cs ih =>
    intro rest best bt errs
    have hrec : blendLoop (((c, BlendAttempt.notFound) :: cs.map (fun c => (c, BlendAttempt.notFound))) ++ rest)
          best bt errs
        = blendLoop (cs.map (fun c => (c, BlendAttempt.notFound)) ++ rest) best bt
            (errs ++ [notFoundMsg c]) := rfl
    simp only [List.map_cons, hrec, ih]
    simp

/-- C8: a candidate whose executable path does not exist contributes one
diagnostic and the loop advances; with every candidate missing except a
fully succeeding last one, the last candidate's record (with no error
field) is returned and exactly the `N` missing-executable diagnostics are
recorded; and when every candidate is missing, the returned record's error
field is the `'; '`-concatenation of all per-candidate diagnostics. -/
theorem blend_missing_candidates (cs : List Candidate) (last : Candidate) :
    (extract_blend_metadata
        (cs.map (fun c => (c, BlendAttempt.notFound)) ++ [(last, .metaParsed true false)])
      = ⟨some last.name, true, none⟩
      ∧ (blendLoop (cs.map (fun c => (c, BlendAttempt.notFound))
            ++ [(last, .metaParsed true false)]) none false []).2.2
        = cs.map notFoundMsg)
    ∧ (cs ≠ [] → extract_blend_metadata (cs.map (fun c => (c, BlendAttempt.notFound)))
        = ⟨none, false, some (joinSemi (cs.map notFoundMsg))⟩) := by
  have hlast : ∀ errs, blendLoop [(last, .metaParsed true false)] none false errs
      = (some ⟨some last.name, true, none⟩, true, errs) := by
    intro errs
    simp [blendLoop]
  have hloop := blendLoop_notFound_prefix cs [(last, .metaParsed true false)] none false []
  rw [hlast] at hloop
  refine ⟨⟨?_, ?_⟩, ?_⟩
  · simp only [extract_blend_metadata, hloop]
    simp
  · rw [hloop]
    simp
  · intro hne
    have hmapne : cs.map notFoundMsg ≠ [] := by
      simpa using hne
    have hempty : blendLoop (cs.map (fun c => (c, BlendAttempt.notFound))) none false []
        = (none, false, cs.map notFoundMsg) := by
      have h := blendLoop_notFound_prefix cs [] none false []
      simpa [blendLoop] using h
    simp only [extract_blend_metadata, hempty]
    simp [hmapne]

/-- C8, witness: two missing candidates followed by a succeeding one return
the last candidate's record with both missing-executable diagnostics
recorded; the same two candidates alone produce the concatenated error. -/
theorem blend_missing_candidates_witness :
    extract_blend_metadata
        ([⟨"modern-4.x", "/opt/b4"⟩, ⟨"bridge-3.x", "/opt/b3"⟩].map
          (fun c => (c, BlendAttempt.notFound)) ++ [(⟨"default", "blender"⟩, .metaParsed true false)])
      = ⟨some "default", true, none⟩
    ∧ extract_blend_metadata
        ([⟨"modern-4.x", "/opt/b4"⟩, ⟨"bridge-3.x", "/opt/b3"⟩].map
          (fun c => (c, BlendAttempt.notFound)))
      = ⟨none, false,
          some (joinSemi ([⟨"modern-4.x", "/opt/b4"⟩, ⟨"bridge-3.x", "/opt/b3"⟩].map notFoundMsg))⟩ :=
  ⟨(blend_missing_candidates [⟨"modern-4.x", "/opt/b4"⟩, ⟨"bridge-3.x", "/opt/b3"⟩]
      ⟨"default", "blender"⟩).1.1,
    (blend_missing_candidates [⟨"modern-4.x", "/opt/b4"⟩, ⟨"bridge-3.x", "/opt/b3"⟩]
      ⟨"default", "blender"⟩).2 (by decide)⟩
